import Mathlib

/-! Expiring in-process cache (`caching` / `caching/std`).

Shallow embedding of `src/cache.go` (the `Item` type and `IsExpired`) and of
`src/std/cache.go` (the `Cache` store, its accessors, the constructor `New`
and the expiry goroutine `expirationControl`).

Modelling conventions.

* Keys are values of a type `K` with decidable, reflexive equality (the
  hashable keys of a Go map; unhashable dynamic types and floating-point NaN
  keys are outside the model).  Values are an opaque type `V`; its `default`
  element stands for the nil interface value.
* The Go map `map[interface{}]caching.Item` is a function `K → Option (Item V)`.
* `time.Time` is an instant (nanoseconds since the zero instant, January 1 of
  year 1, 00:00:00 UTC, unbounded), an optional monotonic reading and a
  location.  `time.Duration` is an integer number of nanoseconds.
* Every call of `time.Now()` is an explicit argument: the value it returned.
* The mutex is not represented: each critical section is one atomic step.
  The goroutine started by `store` is returned as a `Watcher` record, and its
  body is split at its suspension point and between its two critical
  sections, so that other operations can be interleaved (`Sys.step`).
* No embedded operation panics on hashable keys, so the `recover` handler of
  `expirationControl` never fires and is not represented.
-/

namespace Caching

/-! ## The parts of package `time` used by the code -/

/-- Location attached to a time value; `utcLoc` is UTC. -/
abbrev Location := Nat

/-- The UTC location. -/
def utcLoc : Location := 0

/-- Go `time.Duration`: a signed count of nanoseconds. -/
abbrev Duration := Int

/-- Smallest duration, `-1 << 63`. -/
def minDuration : Duration := -(2 ^ 63)

/-- Largest duration, `1<<63 - 1`. -/
def maxDuration : Duration := 2 ^ 63 - 1

/-- Go `time.Time`. -/
structure Time where
  /-- nanoseconds since the zero instant -/
  inst : Int
  /-- monotonic clock reading, present on values produced by `time.Now()` -/
  mono : Option Int
  /-- location in which the instant is expressed -/
  loc : Location
deriving DecidableEq

namespace Time

/-- Go `Time.UTC`: same instant, location UTC, monotonic reading stripped. -/
def UTC (t : Time) : Time := { inst := t.inst, mono := none, loc := utcLoc }

/-- Go `Time.IsZero`: the instant is January 1, year 1, 00:00:00 UTC. -/
def IsZero (t : Time) : Bool := decide (t.inst = 0)

/-- Go `Time.After`: monotonic readings are compared when both are present,
wall instants otherwise. -/
def After (t u : Time) : Bool :=
  match t.mono, u.mono with
  | some a, some b => decide (b < a)
  | _, _ => decide (u.inst < t.inst)

/-- Go `Time.Before`. -/
def Before (t u : Time) : Bool :=
  match t.mono, u.mono with
  | some a, some b => decide (a < b)
  | _, _ => decide (t.inst < u.inst)

/-- Saturation of an exact difference to the range of `Duration`. -/
def saturate (d : Int) : Duration :=
  if d < minDuration then minDuration else if maxDuration < d then maxDuration else d

/-- Go `Time.Sub`: the difference `t - u`, saturated to the duration range. -/
def Sub (t u : Time) : Duration :=
  match t.mono, u.mono with
  | some a, some b => saturate (a - b)
  | _, _ => saturate (t.inst - u.inst)

/-- Go `Time.Add`: the instant moves by `d`; a monotonic reading moves with it
and is dropped when it would leave the 64-bit range. -/
def Add (t : Time) (d : Duration) : Time :=
  { inst := t.inst + d
    mono := match t.mono with
      | some m => if minDuration ≤ m + d ∧ m + d ≤ maxDuration then some (m + d) else none
      | none => none
    loc := t.loc }

end Time

/-! ## `src/cache.go` -/

/-- Cache item (`caching.Item`). -/
structure Item (V : Type) where
  Value : V
  Expiration : Time
deriving DecidableEq

/-- The zero value of `Item`: nil value, zero time. -/
def Item.zero {V : Type} [Inhabited V] : Item V :=
  { Value := default, Expiration := { inst := 0, mono := none, loc := utcLoc } }

/-- `Item.IsExpired`, with `now` the value returned by `time.Now()`. -/
def Item.IsExpired {V : Type} (e : Item V) (now : Time) : Bool :=
  now.UTC.After e.Expiration.UTC

/-! ## `src/std/cache.go` -/

/-- The store (`std.Cache`), without its mutex. -/
structure Cache (K V : Type) where
  defaultValidity : Duration
  storage : K → Option (Item V)

/-- Program point of an expiry goroutine. -/
inductive Phase (V : Type) where
  /-- created by `go`, body not yet entered -/
  | spawned : Phase V
  /-- inside `time.Sleep(d)`; `since` is the local `now` -/
  | sleeping (d : Duration) (since : Time) : Phase V
  /-- after `c.load(key)` returned `item` with `ok = true` -/
  | loaded (item : Item V) : Phase V
  /-- returned -/
  | done : Phase V
deriving DecidableEq

/-- A goroutine running `expirationControl(key, expiration)`. -/
structure Watcher (K V : Type) where
  key : K
  expiration : Time
  phase : Phase V

section Ops

variable {K V : Type} [DecidableEq K]

/-- `Cache.delete`. -/
def Cache.delete (c : Cache K V) (key : K) : Cache K V :=
  { c with storage := fun j => if j = key then none else c.storage j }

/-- `Cache.load`. -/
def Cache.load [Inhabited V] (c : Cache K V) (key : K) : Item V × Bool :=
  match c.storage key with
  | some item => (item, true)
  | none => (Item.zero, false)

/-- `Cache.store`; `now` is the reading of `time.Now()` on line 64.  Returns
the new store and the goroutine started on line 72. -/
def Cache.store (c : Cache K V) (key : K) (item : Item V) (now : Time) :
    Cache K V × Watcher K V :=
  let item : Item V :=
    if item.Expiration.IsZero then { item with Expiration := now.Add c.defaultValidity }
    else item
  ({ c with storage := fun j => if j = key then some item else c.storage j },
   { key := key, expiration := item.Expiration, phase := Phase.spawned })

/-- `Cache.Get`. -/
def Cache.Get [Inhabited V] (c : Cache K V) (key : K) : Item V × Bool :=
  c.load key

/-- `Cache.Set`. -/
def Cache.Set (c : Cache K V) (key : K) (item : Item V) (now : Time) :
    Cache K V × Watcher K V :=
  c.store key item now

/-- `Cache.Add`: the new store and the goroutine started, if any. -/
def Cache.Add [Inhabited V] (c : Cache K V) (key : K) (item : Item V) (now : Time) :
    Cache K V × Option (Watcher K V) :=
  if (c.load key).2 then (c, none)
  else ((c.store key item now).1, some (c.store key item now).2)

/-- `Cache.Flush`. -/
def Cache.Flush (c : Cache K V) : Cache K V :=
  { c with storage := fun _ => none }

/-- Constructor `New`. -/
def New (defaultValidity : Duration) : Except String (Cache K V) :=
  if defaultValidity = 0 then
    Except.error "argument 'defaultValidity' can't be empty"
  else
    Except.ok { defaultValidity := defaultValidity, storage := fun _ => none }

/-- Lines 25-33 of `expirationControl`: from entry up to the call of
`time.Sleep`; `now` is the reading of `time.Now()` on line 26. -/
def Cache.expirationControlStart (c : Cache K V) (key : K) (expiration : Time) (now : Time) :
    Cache K V × Phase V :=
  let expiration := expiration.UTC
  let now := now.UTC
  if expiration.IsZero || expiration.Before now then
    (c.delete key, Phase.done)
  else
    (c, Phase.sleeping (expiration.Sub now) now)

/-- Lines 35-38 of `expirationControl`: the lookup after the sleep. -/
def Cache.expirationControlLoad [Inhabited V] (c : Cache K V) (key : K) : Phase V :=
  if (c.load key).2 then Phase.loaded (c.load key).1 else Phase.done

/-- Lines 40-44 of `expirationControl`; `now` is the reading of `time.Now()`
on line 40 and `item` the result of the lookup. -/
def Cache.expirationControlFinish (c : Cache K V) (key : K) (item : Item V) (now : Time) :
    Cache K V :=
  if item.Expiration.UTC.After now.UTC then c else c.delete key

/-- Lines 35-44 of `expirationControl` run with nothing interleaved: the part
after the sleep. -/
def Cache.expirationControlResume [Inhabited V] (c : Cache K V) (key : K) (now : Time) :
    Cache K V :=
  match c.expirationControlLoad key with
  | Phase.loaded item => c.expirationControlFinish key item now
  | _ => c

/-! ## Interleavings -/

/-- A store together with the expiry goroutines started so far. -/
structure Sys (K V : Type) where
  cache : Cache K V
  watchers : List (Watcher K V)

/-- One atomic step of the system. -/
inductive Event (K V : Type) where
  /-- `Set(key, item)` reading the clock as `now` -/
  | set (key : K) (item : Item V) (now : Time) : Event K V
  /-- `Add(key, item)` reading the clock as `now` -/
  | add (key : K) (item : Item V) (now : Time) : Event K V
  /-- `Flush()` -/
  | flush : Event K V
  /-- goroutine number `i` runs to its next program point while the clock reads `now` -/
  | watcher (i : Nat) (now : Time) : Event K V

/-- Next program point of one goroutine.  A goroutine inside `time.Sleep(d)`
stays there until `d` has elapsed since it read the clock. -/
def Watcher.step [Inhabited V] (c : Cache K V) (w : Watcher K V) (now : Time) :
    Cache K V × Watcher K V :=
  match w.phase with
  | Phase.spawned =>
      let r := c.expirationControlStart w.key w.expiration now
      (r.1, { w with phase := r.2 })
  | Phase.sleeping d since =>
      if d ≤ 0 ∨ since.inst + d ≤ now.inst then
        (c, { w with phase := c.expirationControlLoad w.key })
      else (c, w)
  | Phase.loaded item =>
      (c.expirationControlFinish w.key item now, { w with phase := Phase.done })
  | Phase.done => (c, w)

/-- Effect of one event. -/
def Sys.step [Inhabited V] (s : Sys K V) : Event K V → Sys K V
  | Event.set key item now =>
      let r := s.cache.Set key item now
      { cache := r.1, watchers := s.watchers ++ [r.2] }
  | Event.add key item now =>
      let r := s.cache.Add key item now
      { cache := r.1, watchers := s.watchers ++ r.2.toList }
  | Event.flush => { s with cache := s.cache.Flush }
  | Event.watcher i now =>
      match s.watchers[i]? with
      | some w =>
          let r := w.step s.cache now
          { cache := r.1, watchers := s.watchers.set i r.2 }
      | none => s

/-- Effect of a sequence of events. -/
def Sys.run [Inhabited V] (s : Sys K V) (evs : List (Event K V)) : Sys K V :=
  evs.foldl Sys.step s

end Ops

/-! ## Clock readings and stored expirations -/

/-- Instant of the Unix epoch, January 1, 1970 UTC (`unixToInternal` seconds, in
nanoseconds); `time.Now()` is computed from a non-negative Unix time. -/
def unixEpochInst : Int := 62135596800000000000

/-- The clock reading an event carries, if any. -/
def Event.clock {K V : Type} : Event K V → Option Time
  | Event.set _ _ now => some now
  | Event.add _ _ now => some now
  | Event.flush => none
  | Event.watcher _ now => some now

/-- The clock reading of the event, if any, is not before the Unix epoch. -/
def Event.afterEpoch {K V : Type} (ev : Event K V) : Bool :=
  match ev.clock with
  | some t => decide (unixEpochInst ≤ t.inst)
  | none => true

/-- Every entry in the mapping has a non-zero expiration. -/
def Cache.NonZeroStored {K V : Type} (c : Cache K V) : Prop :=
  ∀ (k : K) (s : Item V), c.storage k = some s → s.Expiration.IsZero = false

/-! ## Sample values -/

/-- A wall-clock time value in UTC without monotonic reading. -/
def Time.ofInst (n : Int) : Time := { inst := n, mono := none, loc := utcLoc }

/-- A value as returned by `time.Now()`: local location, monotonic reading `m`. -/
def Time.reading (n m : Int) : Time := { inst := n, mono := some m, loc := 1 }

/-- An empty store over natural-number keys and values, default validity one hour. -/
def sampleCache : Cache Nat Nat :=
  { defaultValidity := 3600000000000, storage := fun _ => none }

/-- A store over natural-number keys and values holding one entry under key `7`
whose expiration is the instant `50`. -/
def staleCache : Cache Nat Nat :=
  { defaultValidity := 3600000000000
    storage := fun j => if j = 7 then some { Value := 1, Expiration := Time.ofInst 50 } else none }

/-! ## Basic facts about the embedded operations -/

theorem Time.saturate_le {x : Int} (h : 0 ≤ x) : @LE.le Int _ (Time.saturate x) x := by
  have h1 : (-9223372036854775808 : Int) = minDuration := by norm_num [minDuration]
  unfold Time.saturate
  split_ifs with ha hb
  · show @LE.le Int _ minDuration x
    omega
  · exact le_of_lt hb
  · exact le_refl x

theorem Time.isZero_UTC (t : Time) : t.UTC.IsZero = t.IsZero := rfl

theorem Time.after_UTC (t u : Time) : t.UTC.After u.UTC = decide (u.inst < t.inst) := rfl

theorem Time.before_UTC (t u : Time) : t.UTC.Before u.UTC = decide (t.inst < u.inst) := rfl

theorem Time.sub_UTC (t u : Time) : t.UTC.Sub u.UTC = Time.saturate (t.inst - u.inst) := rfl


theorem Cache.store_storage_self {K V : Type} [DecidableEq K] (c : Cache K V) (k : K) (e : Item V) (now : Time)
    (h : e.Expiration.IsZero = false) : (c.store k e now).1.storage k = some e := by
  simp [Cache.store, h]

theorem Cache.store_watcher {K V : Type} [DecidableEq K] (c : Cache K V) (k : K) (e : Item V) (now : Time)
    (h : e.Expiration.IsZero = false) :
    (c.store k e now).2 = { key := k, expiration := e.Expiration, phase := Phase.spawned } := by
  simp [Cache.store, h]

theorem Cache.load_of_some {K V : Type} [Inhabited V] (c : Cache K V) (k : K) (e : Item V)
    (h : c.storage k = some e) : c.load k = (e, true) := by
  simp [Cache.load, h]

theorem Cache.load_of_none {K V : Type} [Inhabited V] (c : Cache K V) (k : K)
    (h : c.storage k = none) : c.load k = (Item.zero, false) := by
  simp [Cache.load, h]

theorem Cache.delete_storage_self {K V : Type} [DecidableEq K] (c : Cache K V) (k : K) : (c.delete k).storage k = none := by
  simp [Cache.delete]

theorem Cache.expirationControlStart_sleeps {K V : Type} [DecidableEq K] (c : Cache K V) (k : K) (x now : Time)
    (hz : x.IsZero = false) (hx : now.inst ≤ x.inst) :
    c.expirationControlStart k x now
      = (c, Phase.sleeping (Time.saturate (x.inst - now.inst)) now.UTC) := by
  have hb : ¬ x.inst < now.inst := by omega
  simp [Cache.expirationControlStart, Time.isZero_UTC, Time.before_UTC, Time.sub_UTC, hz, hb]

theorem Cache.expirationControlStart_deletes {K V : Type} [DecidableEq K] (c : Cache K V) (k : K) (x now : Time)
    (h : x.IsZero = true ∨ x.inst < now.inst) :
    c.expirationControlStart k x now = (c.delete k, Phase.done) := by
  rcases h with h | h <;>
    simp [Cache.expirationControlStart, Time.isZero_UTC, Time.before_UTC, h]

theorem Cache.expirationControlLoad_of_some {K V : Type} [Inhabited V] (c : Cache K V) (k : K) (e : Item V)
    (h : c.storage k = some e) : c.expirationControlLoad k = Phase.loaded e := by
  simp [Cache.expirationControlLoad, Cache.load, h]

theorem Cache.expirationControlLoad_of_none {K V : Type} [Inhabited V] (c : Cache K V) (k : K)
    (h : c.storage k = none) : c.expirationControlLoad k = Phase.done := by
  simp [Cache.expirationControlLoad, Cache.load, h]

theorem Cache.expirationControlFinish_keeps {K V : Type} [DecidableEq K] (c : Cache K V) (k : K) (e : Item V) (now : Time)
    (h : now.inst < e.Expiration.inst) : c.expirationControlFinish k e now = c := by
  simp [Cache.expirationControlFinish, Time.after_UTC, h]

theorem Cache.expirationControlFinish_deletes {K V : Type} [DecidableEq K] (c : Cache K V) (k : K) (e : Item V) (now : Time)
    (h : e.Expiration.inst ≤ now.inst) : c.expirationControlFinish k e now = c.delete k := by
  have hb : ¬ now.inst < e.Expiration.inst := by omega
  simp [Cache.expirationControlFinish, Time.after_UTC, hb]

theorem Cache.store_of_nonzero {K V : Type} [DecidableEq K] (c : Cache K V) (k : K) (e : Item V)
    (now : Time) (h : e.Expiration.IsZero = false) :
    c.store k e now
      = ({ c with storage := fun j => if j = k then some e else c.storage j },
         { key := k, expiration := e.Expiration, phase := Phase.spawned }) := by
  simp [Cache.store, h]

theorem List.getElem?_append_length_cons {α : Type} (ws : List α) (a : α) (l : List α) :
    (ws ++ a :: l)[ws.length]? = some a := by
  induction ws with
  | nil => simp
  | cons x xs ih => simpa using ih

theorem List.set_append_length_cons {α : Type} (ws : List α) (a b : α) (l : List α) :
    (ws ++ a :: l).set ws.length b = ws ++ b :: l := by
  induction ws with
  | nil => rfl
  | cons x xs ih => simp [ih]

theorem Sys.run_cons {K V : Type} [DecidableEq K] [Inhabited V] (s : Sys K V) (ev : Event K V)
    (evs : List (Event K V)) : Sys.run s (ev :: evs) = Sys.run (s.step ev) evs := rfl

theorem Sys.run_nil {K V : Type} [DecidableEq K] [Inhabited V] (s : Sys K V) :
    Sys.run s [] = s := rfl

theorem Sys.step_set {K V : Type} [DecidableEq K] [Inhabited V] (c : Cache K V)
    (ws : List (Watcher K V)) (k : K) (e : Item V) (now : Time) :
    Sys.step { cache := c, watchers := ws } (Event.set k e now)
      = { cache := (c.Set k e now).1, watchers := ws ++ [(c.Set k e now).2] } := rfl

theorem Sys.step_watcher_at {K V : Type} [DecidableEq K] [Inhabited V] (c : Cache K V)
    (ws l : List (Watcher K V)) (w : Watcher K V) (now : Time) :
    Sys.step { cache := c, watchers := ws ++ w :: l } (Event.watcher ws.length now)
      = { cache := (w.step c now).1, watchers := ws ++ (w.step c now).2 :: l } := by
  simp only [Sys.step, List.getElem?_append_length_cons, List.set_append_length_cons]

theorem Time.sleep_elapsed {x s t : Time} (hs : s.inst ≤ x.inst) (hw : x.inst ≤ t.inst) :
    s.UTC.inst + Time.saturate (x.inst - s.inst) ≤ t.inst := by
  have hd := Time.saturate_le (x := x.inst - s.inst) (by omega)
  show s.inst + _ ≤ _
  omega

theorem Item.isExpired_eq {V : Type} (e : Item V) (now : Time) :
    e.IsExpired now = decide (e.Expiration.inst < now.inst) := rfl

theorem Cache.delete_of_absent {K V : Type} [DecidableEq K] (c : Cache K V) (k : K)
    (h : c.storage k = none) : c.delete k = c := by
  cases c with
  | mk d st =>
    simp only [Cache.delete, Cache.mk.injEq, true_and]
    funext j
    by_cases hj : j = k
    · subst hj
      simpa using h.symm
    · simp [hj]

theorem Time.saturate_of_fits {x : Int} (h0 : 0 ≤ x) (h1 : @LE.le Int _ x maxDuration) :
    @Eq Int (Time.saturate x) x := by
  have hm : (-9223372036854775808 : Int) = minDuration := by norm_num [minDuration]
  unfold Time.saturate
  split_ifs with ha hb
  · exfalso
    have ha2 : @LT.lt Int _ x minDuration := ha
    omega
  · exfalso
    have hb2 : @LT.lt Int _ maxDuration x := hb
    omega
  · rfl

theorem Cache.expirationControlResume_of_some {K V : Type} [DecidableEq K] [Inhabited V]
    (c : Cache K V) (k : K) (s : Item V) (t : Time) (h : c.storage k = some s) :
    c.expirationControlResume k t = c.expirationControlFinish k s t := by
  simp [Cache.expirationControlResume, Cache.expirationControlLoad_of_some c k s h]

theorem Cache.expirationControlResume_of_none {K V : Type} [DecidableEq K] [Inhabited V]
    (c : Cache K V) (k : K) (t : Time) (h : c.storage k = none) :
    c.expirationControlResume k t = c := by
  simp [Cache.expirationControlResume, Cache.expirationControlLoad_of_none c k h]

theorem Time.add_nonzero (now : Time) (d : Duration) (hd : minDuration ≤ d)
    (hn : unixEpochInst ≤ now.inst) : (now.Add d).IsZero = false := by
  have h1 : (-9223372036854775808 : Int) = minDuration := by norm_num [minDuration]
  have h2 : @LE.le Int _ minDuration d := hd
  have h3 : (62135596800000000000 : Int) ≤ now.inst := hn
  have h4 : now.inst + d ≠ 0 := by omega
  simp [Time.IsZero, Time.Add, h4]

theorem Cache.store_nonZeroStored {K V : Type} [DecidableEq K] (c : Cache K V) (k : K)
    (e : Item V) (now : Time) (hc : c.NonZeroStored) (hd : minDuration ≤ c.defaultValidity)
    (hn : unixEpochInst ≤ now.inst) : (c.store k e now).1.NonZeroStored := by
  intro j s hs
  by_cases hj : j = k
  · cases hz : e.Expiration.IsZero
    · simp [Cache.store, hz, hj] at hs
      rw [← hs]
      exact hz
    · simp [Cache.store, hz, hj] at hs
      rw [← hs]
      exact Time.add_nonzero now c.defaultValidity hd hn
  · simp [Cache.store, hj] at hs
    exact hc j s hs

theorem Cache.delete_nonZeroStored {K V : Type} [DecidableEq K] (c : Cache K V) (k : K)
    (hc : c.NonZeroStored) : (c.delete k).NonZeroStored := by
  intro j s hs
  by_cases hj : j = k
  · simp [Cache.delete, hj] at hs
  · simp [Cache.delete, hj] at hs
    exact hc j s hs

theorem Watcher.step_cache {K V : Type} [DecidableEq K] [Inhabited V] (c : Cache K V)
    (w : Watcher K V) (now : Time) :
    (w.step c now).1 = c ∨ (w.step c now).1 = c.delete w.key := by
  unfold Watcher.step
  cases hp : w.phase with
  | spawned =>
    simp only [Cache.expirationControlStart]
    split_ifs
    · exact Or.inr rfl
    · exact Or.inl rfl
  | sleeping d since =>
    simp only
    split_ifs <;> exact Or.inl rfl
  | loaded item =>
    simp only [Cache.expirationControlFinish]
    split_ifs
    · exact Or.inl rfl
    · exact Or.inr rfl
  | done => exact Or.inl rfl

theorem Sys.step_defaultValidity {K V : Type} [DecidableEq K] [Inhabited V] (s : Sys K V)
    (ev : Event K V) : (s.step ev).cache.defaultValidity = s.cache.defaultValidity := by
  cases ev with
  | set k e now => rfl
  | add k e now =>
    simp only [Sys.step, Cache.Add]
    split_ifs <;> rfl
  | flush => rfl
  | watcher i now =>
    simp only [Sys.step]
    cases hw : s.watchers[i]? with
    | none => rfl
    | some w =>
      simp only
      rcases Watcher.step_cache s.cache w now with h | h <;> rw [h]
      rfl

theorem Sys.step_nonZeroStored {K V : Type} [DecidableEq K] [Inhabited V] (s : Sys K V)
    (ev : Event K V) (hc : s.cache.NonZeroStored) (hd : minDuration ≤ s.cache.defaultValidity)
    (hn : ev.afterEpoch = true) : (s.step ev).cache.NonZeroStored := by
  cases ev with
  | set k e now =>
    have hn2 : unixEpochInst ≤ now.inst := by simpa [Event.afterEpoch, Event.clock] using hn
    exact Cache.store_nonZeroStored s.cache k e now hc hd hn2
  | add k e now =>
    have hn2 : unixEpochInst ≤ now.inst := by simpa [Event.afterEpoch, Event.clock] using hn
    simp only [Sys.step, Cache.Add]
    split_ifs
    · exact hc
    · exact Cache.store_nonZeroStored s.cache k e now hc hd hn2
  | flush =>
    intro j x hx
    simp [Sys.step, Cache.Flush] at hx
  | watcher i now =>
    simp only [Sys.step]
    cases hw : s.watchers[i]? with
    | none => exact hc
    | some w =>
      simp only
      rcases Watcher.step_cache s.cache w now with h | h <;> rw [h]
      · exact hc
      · exact Cache.delete_nonZeroStored s.cache w.key hc

theorem Sys.run_nonZeroStored {K V : Type} [DecidableEq K] [Inhabited V]
    (evs : List (Event K V)) (s : Sys K V) (hc : s.cache.NonZeroStored)
    (hd : minDuration ≤ s.cache.defaultValidity)
    (hn : ∀ ev ∈ evs, ev.afterEpoch = true) : (s.run evs).cache.NonZeroStored := by
  induction evs generalizing s with
  | nil => exact hc
  | cons ev evs ih =>
    rw [Sys.run_cons]
    apply ih
    · exact Sys.step_nonZeroStored s ev hc hd (hn ev (List.mem_cons_self ev evs))
    · rw [Sys.step_defaultValidity]
      exact hd
    · intro ev2 h2
      exact hn ev2 (List.mem_cons_of_mem ev h2)

/-! ## Set, Get, Add, Flush and New -/

/-- C1: for every store, key `k` and entry `e` with non-zero expiration, `Set(k, e)`
followed immediately by `Get(k)` returns `(e, true)`, the entry exactly as given
(value, instant, location and monotonic reading unchanged).  The clock reading of
`Set` is arbitrary, so the expiration need not even lie in the future. -/
theorem set_then_get {K V : Type} [DecidableEq K] [Inhabited V]
    (c : Cache K V) (k : K) (e : Item V) (now : Time)
    (h : e.Expiration.IsZero = false) :
    (c.Set k e now).1.Get k = (e, true) := by
  simp [Cache.Set, Cache.store, Cache.Get, Cache.load, h]

theorem set_then_get_witness :
    (Time.ofInst 500).IsZero = false ∧
      (sampleCache.Set 7 { Value := 1, Expiration := Time.ofInst 500 } (Time.reading 100 3)).1.Get 7
        = ({ Value := 1, Expiration := Time.ofInst 500 }, true) :=
  ⟨by decide, set_then_get sampleCache 7 _ _ (by decide)⟩

/-- C2: for every store with default validity `d`, key `k` and entry `e` whose
expiration is the zero sentinel, `Set(k, e)` at clock reading `now` stores under `k`
the entry with the value of `e` and expiration `now.Add d`, whose instant is exactly
`now + d`; `Get(k)` right afterwards returns that entry with `found = true`, and the
goroutine started is bound to that resolved expiration. -/
theorem set_zero_expiration_resolved {K V : Type} [DecidableEq K] [Inhabited V]
    (c : Cache K V) (k : K) (e : Item V) (now : Time)
    (h : e.Expiration.IsZero = true) :
    (c.Set k e now).1.storage k
        = some { Value := e.Value, Expiration := now.Add c.defaultValidity } ∧
      (now.Add c.defaultValidity).inst = now.inst + c.defaultValidity ∧
      (c.Set k e now).1.Get k
        = ({ Value := e.Value, Expiration := now.Add c.defaultValidity }, true) ∧
      (c.Set k e now).2.expiration = now.Add c.defaultValidity := by
  simp [Cache.Set, Cache.store, Cache.Get, Cache.load, h, Time.Add]

theorem set_zero_expiration_resolved_witness :
    (Time.ofInst 0).IsZero = true ∧
      (sampleCache.Set 7 { Value := 1, Expiration := Time.ofInst 0 } (Time.reading 100 3)).1.storage 7
        = some { Value := 1, Expiration := (Time.reading 100 3).Add sampleCache.defaultValidity } ∧
      ((Time.reading 100 3).Add sampleCache.defaultValidity).inst = 3600000000100 :=
  ⟨by decide,
   (set_zero_expiration_resolved sampleCache 7 { Value := 1, Expiration := Time.ofInst 0 }
      (Time.reading 100 3) (by decide)).1,
   by decide⟩

/-- C3: when key `k` is present in the store (whatever the expiration of the stored
entry, and whatever the clock reads), `Add(k, e2)` returns the store unchanged and
starts no goroutine; and on a store where `k` is absent, `Add(k, e1)` with non-zero
expiration followed by `Add(k, e2)` leaves `Get(k) = (e1, true)`. -/
theorem add_present_is_noop {K V : Type} [DecidableEq K] [Inhabited V]
    (c c0 : Cache K V) (k : K) (e1 e2 : Item V) (n1 n2 : Time)
    (hp : (c.storage k).isSome = true) (ha : c0.storage k = none)
    (hz : e1.Expiration.IsZero = false) :
    c.Add k e2 n2 = (c, none) ∧
      ((c0.Add k e1 n1).1.Add k e2 n2).1.Get k = (e1, true) ∧
      ((c0.Add k e1 n1).1.Add k e2 n2).2 = none := by
  refine ⟨?_, ?_, ?_⟩
  · obtain ⟨it, hit⟩ := Option.isSome_iff_exists.mp hp
    simp [Cache.Add, Cache.load, hit]
  · simp [Cache.Add, Cache.load, Cache.store, Cache.Get, ha, hz]
  · simp [Cache.Add, Cache.load, Cache.store, ha, hz]

theorem add_present_is_noop_witness :
    (staleCache.storage 7).isSome = true ∧ sampleCache.storage 7 = none ∧
      (Time.ofInst 500).IsZero = false ∧
      (staleCache.Add 7 { Value := 2, Expiration := Time.ofInst 900 } (Time.reading 100 3)).1.storage 7
        = some { Value := 1, Expiration := Time.ofInst 50 } ∧
      ((sampleCache.Add 7 { Value := 1, Expiration := Time.ofInst 500 } (Time.reading 100 3)).1.Add 7
          { Value := 2, Expiration := Time.ofInst 900 } (Time.reading 100 3)).1.Get 7
        = ({ Value := 1, Expiration := Time.ofInst 500 }, true) :=
  ⟨by decide, rfl, by decide,
   by rw [(add_present_is_noop staleCache sampleCache 7
            { Value := 1, Expiration := Time.ofInst 500 }
            { Value := 2, Expiration := Time.ofInst 900 }
            (Time.reading 100 3) (Time.reading 100 3) (by decide) rfl (by decide)).1]
      rfl,
   (add_present_is_noop staleCache sampleCache 7 _ _ _ _ (by decide) rfl (by decide)).2.1⟩

/-- C4: when key `k` is absent from the store, `Add(k, e)` at clock reading `now`
produces the same store and starts the same goroutine (key and target expiration)
as `Set(k, e)` at the same clock reading. -/
theorem add_absent_eq_set {K V : Type} [DecidableEq K] [Inhabited V]
    (c : Cache K V) (k : K) (e : Item V) (now : Time)
    (ha : c.storage k = none) :
    c.Add k e now = ((c.Set k e now).1, some (c.Set k e now).2) := by
  simp [Cache.Add, Cache.load, Cache.Set, ha]

theorem add_absent_eq_set_witness :
    sampleCache.storage 7 = none ∧
      sampleCache.Add 7 { Value := 1, Expiration := Time.ofInst 0 } (Time.reading 100 3)
        = ((sampleCache.Set 7 { Value := 1, Expiration := Time.ofInst 0 } (Time.reading 100 3)).1,
           some (sampleCache.Set 7 { Value := 1, Expiration := Time.ofInst 0 }
             (Time.reading 100 3)).2) :=
  ⟨rfl, add_absent_eq_set sampleCache 7 _ _ rfl⟩

/-- C5: for every store and every key `k`, after `Flush()` the call `Get(k)` returns
the zero item with `found = false`; the mapping is empty and `defaultValidity` is the
same as before. -/
theorem flush_empties {K V : Type} [DecidableEq K] [Inhabited V] (c : Cache K V) (k : K) :
    c.Flush.Get k = (Item.zero, false) ∧ c.Flush.storage = (fun _ => none) ∧
      c.Flush.defaultValidity = c.defaultValidity := by
  simp [Cache.Flush, Cache.Get, Cache.load]

/-- C6: `New(0)` returns an error and no store; for every strictly positive duration
`d`, `New(d)` returns a store whose `defaultValidity` is `d` and whose mapping is
empty, so that `Get(k)` returns `found = false` for every key `k`. -/
theorem new_zero_fails_positive_succeeds (K V : Type) [DecidableEq K] [Inhabited V] :
    (∃ msg, (New 0 : Except String (Cache K V)) = Except.error msg) ∧
      ∀ d : Duration, 0 < d →
        ∃ c : Cache K V, New d = Except.ok c ∧ c.defaultValidity = d ∧
          ∀ k : K, c.storage k = none ∧ c.Get k = (Item.zero, false) := by
  refine ⟨⟨_, rfl⟩, ?_⟩
  intro d hd
  have hne : d ≠ 0 := ne_of_gt hd
  exact ⟨{ defaultValidity := d, storage := fun _ => none }, by simp [New, hne], rfl,
    fun k => ⟨rfl, rfl⟩⟩

theorem new_zero_fails_positive_succeeds_witness :
    ∃ c : Cache Nat Nat, New 5 = Except.ok c ∧ c.defaultValidity = 5 ∧
      ∀ k : Nat, c.storage k = none ∧ c.Get k = (Item.zero, false) :=
  (new_zero_fails_positive_succeeds Nat Nat).2 5 (by decide)

/-- C7, as stated, fails: `New(-1)` succeeds although `-1` is not strictly positive,
so success of `New(d)` is not equivalent to `d > 0`. -/
theorem new_negative_succeeds :
    ¬ (∀ d : Duration, (∃ c : Cache Nat Nat, New d = Except.ok c) ↔ 0 < d) := by
  intro h
  have h1 : ∃ c : Cache Nat Nat, New (-1) = Except.ok c := ⟨_, rfl⟩
  exact absurd ((h (-1)).mp h1) (by decide)

/-- C7, amended: `New(d)` succeeds if and only if `d` is non-zero, and the store it
returns then has `defaultValidity = d`; the `defaultValidity` of every constructed
store is therefore non-zero (it may be negative). -/
theorem new_succeeds_iff_nonzero (K V : Type) [DecidableEq K] [Inhabited V] (d : Duration) :
    ((∃ c : Cache K V, New d = Except.ok c) ↔ d ≠ 0) ∧
      ∀ c : Cache K V, New d = Except.ok c → c.defaultValidity = d ∧ c.defaultValidity ≠ 0 := by
  by_cases hd : d = 0
  · subst hd
    simp [New]
  · refine ⟨⟨fun _ => hd,
      fun _ => ⟨{ defaultValidity := d, storage := fun _ => none }, by simp [New, hd]⟩⟩, ?_⟩
    intro c hc
    simp [New, hd] at hc
    subst hc
    exact ⟨rfl, hd⟩

/-! ## The expiry goroutine -/

/-- C8: for every store, key `k` and entries `e1`, `e2` with non-zero expirations:
after `Set(k, e1)`, the start of the goroutine of `e1` at a clock reading not after
`e1.Expiration` (so that it goes to sleep) and `Set(k, e2)`, in either order of the
last two, when that goroutine resumes at a time `t` with `e1.Expiration <= t` and
reads the clock as `t2 < e2.Expiration`, it deletes nothing: the store is the one
left by `Set(k, e2)`, `Get(k)` returns `(e2, true)`, and the goroutine has returned.
The clock readings of the two `Set` calls play no part. -/
theorem superseded_watcher_keeps_newer {K V : Type} [DecidableEq K] [Inhabited V]
    (c : Cache K V) (ws : List (Watcher K V)) (k : K) (e1 e2 : Item V) (n1 n2 s t t2 : Time)
    (h1 : e1.Expiration.IsZero = false) (h2 : e2.Expiration.IsZero = false)
    (hs : s.inst ≤ e1.Expiration.inst) (hw : e1.Expiration.inst ≤ t.inst)
    (ht : t2.inst < e2.Expiration.inst) :
    ((Sys.run { cache := c, watchers := ws }
        [Event.set k e1 n1, Event.watcher ws.length s, Event.set k e2 n2,
         Event.watcher ws.length t, Event.watcher ws.length t2]).cache.Get k = (e2, true) ∧
      (Sys.run { cache := c, watchers := ws }
        [Event.set k e1 n1, Event.watcher ws.length s, Event.set k e2 n2,
         Event.watcher ws.length t, Event.watcher ws.length t2]).cache
        = (Sys.run { cache := c, watchers := ws }
            [Event.set k e1 n1, Event.watcher ws.length s, Event.set k e2 n2]).cache ∧
      (Sys.run { cache := c, watchers := ws }
        [Event.set k e1 n1, Event.watcher ws.length s, Event.set k e2 n2,
         Event.watcher ws.length t, Event.watcher ws.length t2]).watchers
        = ws ++ [{ key := k, expiration := e1.Expiration, phase := Phase.done },
                 { key := k, expiration := e2.Expiration, phase := Phase.spawned }]) ∧
    ((Sys.run { cache := c, watchers := ws }
        [Event.set k e1 n1, Event.set k e2 n2, Event.watcher ws.length s,
         Event.watcher ws.length t, Event.watcher ws.length t2]).cache.Get k = (e2, true) ∧
      (Sys.run { cache := c, watchers := ws }
        [Event.set k e1 n1, Event.set k e2 n2, Event.watcher ws.length s,
         Event.watcher ws.length t, Event.watcher ws.length t2]).cache
        = (Sys.run { cache := c, watchers := ws }
            [Event.set k e1 n1, Event.set k e2 n2]).cache) := by
  have hg := Time.sleep_elapsed hs hw
  simp [Sys.run_cons, Sys.run_nil, Sys.step_set, Sys.step_watcher_at, Watcher.step,
    Cache.Set, Cache.store_of_nonzero, h1, h2,
    Cache.expirationControlStart_sleeps, hs, hg, Cache.expirationControlLoad, Cache.load,
    Cache.expirationControlFinish_keeps, ht, Cache.Get]

theorem superseded_watcher_keeps_newer_witness :
    (Time.ofInst 150).IsZero = false ∧ (Time.ofInst 1000).IsZero = false ∧
      (Time.reading 100 100).inst ≤ (Time.ofInst 150).inst ∧
      (Time.ofInst 150).inst ≤ (Time.reading 150 150).inst ∧
      (Time.reading 151 151).inst < (Time.ofInst 1000).inst ∧
      (Sys.run { cache := sampleCache, watchers := [] }
        [Event.set 7 { Value := 1, Expiration := Time.ofInst 150 } (Time.reading 100 100),
         Event.watcher 0 (Time.reading 100 100),
         Event.set 7 { Value := 2, Expiration := Time.ofInst 1000 } (Time.reading 120 120),
         Event.watcher 0 (Time.reading 150 150),
         Event.watcher 0 (Time.reading 151 151)]).cache.Get 7
        = ({ Value := 2, Expiration := Time.ofInst 1000 }, true) :=
  ⟨by decide, by decide, by decide, by decide, by decide,
   (superseded_watcher_keeps_newer sampleCache [] 7
      { Value := 1, Expiration := Time.ofInst 150 } { Value := 2, Expiration := Time.ofInst 1000 }
      (Time.reading 100 100) (Time.reading 120 120) (Time.reading 100 100)
      (Time.reading 150 150) (Time.reading 151 151)
      (by decide) (by decide) (by decide) (by decide) (by decide)).1.1⟩

/-- C9, evaluated on the code: a goroutine bound to an overwritten insertion does
delete the newer, unexpired entry.  First run: `Set(7, e1)` with expiration `150` at
time `100`, `Set(7, e2)` with expiration `1000` at time `120`, and the goroutine of
`e1` entering its body only at time `200`; it takes the immediate-delete branch and
removes `e2`.  Second run: the goroutine of `e1` sleeps, looks the key up at time
`150` and finds `e1`; `Set(7, e2)` then runs before the goroutine takes the lock to
delete, and the deletion removes `e2`.  In both runs `e2` is stored and not expired
just before the goroutine step that removes it. -/
theorem superseded_watcher_deletes_newer :
    ((Sys.run { cache := sampleCache, watchers := [] }
        [Event.set 7 { Value := 1, Expiration := Time.ofInst 150 } (Time.reading 100 100),
         Event.set 7 { Value := 2, Expiration := Time.ofInst 1000 }
           (Time.reading 120 120)]).cache.Get 7
        = ({ Value := 2, Expiration := Time.ofInst 1000 }, true) ∧
      Item.IsExpired ({ Value := 2, Expiration := Time.ofInst 1000 } : Item Nat)
        (Time.reading 200 200) = false ∧
      (Sys.run { cache := sampleCache, watchers := [] }
        [Event.set 7 { Value := 1, Expiration := Time.ofInst 150 } (Time.reading 100 100),
         Event.set 7 { Value := 2, Expiration := Time.ofInst 1000 } (Time.reading 120 120),
         Event.watcher 0 (Time.reading 200 200)]).cache.Get 7 = (Item.zero, false)) ∧
    ((Sys.run { cache := sampleCache, watchers := [] }
        [Event.set 7 { Value := 1, Expiration := Time.ofInst 150 } (Time.reading 100 100),
         Event.watcher 0 (Time.reading 100 100),
         Event.watcher 0 (Time.reading 150 150),
         Event.set 7 { Value := 2, Expiration := Time.ofInst 1000 }
           (Time.reading 150 150)]).cache.Get 7
        = ({ Value := 2, Expiration := Time.ofInst 1000 }, true) ∧
      Item.IsExpired ({ Value := 2, Expiration := Time.ofInst 1000 } : Item Nat)
        (Time.reading 150 150) = false ∧
      (Sys.run { cache := sampleCache, watchers := [] }
        [Event.set 7 { Value := 1, Expiration := Time.ofInst 150 } (Time.reading 100 100),
         Event.watcher 0 (Time.reading 100 100),
         Event.watcher 0 (Time.reading 150 150),
         Event.set 7 { Value := 2, Expiration := Time.ofInst 1000 } (Time.reading 150 150),
         Event.watcher 0 (Time.reading 150 150)]).cache.Get 7 = (Item.zero, false)) := by
  decide

/-- C10: for every store, key `k` and entry `e` with non-zero expiration: after
`Set(k, e)` and no further caller operation, once the goroutine of `e` has started
at a clock reading not after `e.Expiration`, has resumed at a time `t` with
`e.Expiration <= t` and has read the clock as `t2` with `e.Expiration <= t2`, the
key is gone: `Get(k)` returns the zero item with `found = false`, and the goroutine
has returned. -/
theorem expired_entry_is_evicted {K V : Type} [DecidableEq K] [Inhabited V]
    (c : Cache K V) (ws : List (Watcher K V)) (k : K) (e : Item V) (n s t t2 : Time)
    (h : e.Expiration.IsZero = false)
    (hs : s.inst ≤ e.Expiration.inst) (hw : e.Expiration.inst ≤ t.inst)
    (ht : e.Expiration.inst ≤ t2.inst) :
    (Sys.run { cache := c, watchers := ws }
        [Event.set k e n, Event.watcher ws.length s, Event.watcher ws.length t,
         Event.watcher ws.length t2]).cache.Get k = (Item.zero, false) ∧
      (Sys.run { cache := c, watchers := ws }
        [Event.set k e n, Event.watcher ws.length s, Event.watcher ws.length t,
         Event.watcher ws.length t2]).watchers
        = ws ++ [{ key := k, expiration := e.Expiration, phase := Phase.done }] ∧
      (Sys.run { cache := c, watchers := ws }
        [Event.set k e n, Event.watcher ws.length s]).cache.Get k = (e, true) := by
  have hg := Time.sleep_elapsed hs hw
  simp [Sys.run_cons, Sys.run_nil, Sys.step_set, Sys.step_watcher_at, Watcher.step,
    Cache.Set, Cache.store_of_nonzero, h,
    Cache.expirationControlStart_sleeps, hs, hg, Cache.expirationControlLoad, Cache.load,
    Cache.expirationControlFinish_deletes, ht, Cache.Get, Cache.delete]

theorem expired_entry_is_evicted_witness :
    (Time.ofInst 150).IsZero = false ∧
      (Time.reading 100 100).inst ≤ (Time.ofInst 150).inst ∧
      (Time.ofInst 150).inst ≤ (Time.reading 150 150).inst ∧
      (Time.ofInst 150).inst ≤ (Time.reading 151 151).inst ∧
      (Sys.run { cache := sampleCache, watchers := [] }
        [Event.set 7 { Value := 1, Expiration := Time.ofInst 150 } (Time.reading 90 90),
         Event.watcher 0 (Time.reading 100 100),
         Event.watcher 0 (Time.reading 150 150),
         Event.watcher 0 (Time.reading 151 151)]).cache.Get 7 = (Item.zero, false) :=
  ⟨by decide, by decide, by decide, by decide,
   (expired_entry_is_evicted sampleCache [] 7 { Value := 1, Expiration := Time.ofInst 150 }
      (Time.reading 90 90) (Time.reading 100 100) (Time.reading 150 150) (Time.reading 151 151)
      (by decide) (by decide) (by decide) (by decide)).1⟩

/-! ## Expiry of stored entries -/

/-- C11, as stated, fails: `store` makes no expiry check, so `Set` of an entry whose
non-zero expiration `50` lies before the clock reading `100` places an entry in the
mapping that is already expired at the time of the write. -/
theorem stored_entry_can_be_expired :
    ¬ (∀ (c : Cache Nat Nat) (k : Nat) (e : Item Nat) (now : Time) (s : Item Nat),
        (c.Set k e now).1.storage k = some s → s.IsExpired now = false) := by
  intro h
  have h1 := h sampleCache 7 { Value := 1, Expiration := Time.ofInst 50 } (Time.reading 100 100)
    { Value := 1, Expiration := Time.ofInst 50 } (by decide)
  exact absurd h1 (by decide)

/-- C11, amended: for every `Set`, and every `Add` on an absent key, performed at clock
reading `now`, the entry `s` placed in the mapping has expiration strictly after `now`
exactly when the given expiration is non-zero and strictly after `now`, or is zero and
`defaultValidity` is positive; and `s.IsExpired` at `now` is false exactly when the
given expiration is non-zero and not before `now`, or is zero and `defaultValidity` is
not negative. -/
theorem stored_entry_unexpired_iff {K V : Type} [DecidableEq K] [Inhabited V]
    (c : Cache K V) (k : K) (e : Item V) (now : Time) :
    ∃ s : Item V,
      (c.Set k e now).1.storage k = some s ∧
      (c.storage k = none → (c.Add k e now).1.storage k = some s) ∧
      (now.inst < s.Expiration.inst ↔
        (e.Expiration.IsZero = false ∧ now.inst < e.Expiration.inst) ∨
        (e.Expiration.IsZero = true ∧ 0 < c.defaultValidity)) ∧
      (s.IsExpired now = false ↔
        (e.Expiration.IsZero = false ∧ now.inst ≤ e.Expiration.inst) ∨
        (e.Expiration.IsZero = true ∧ 0 ≤ c.defaultValidity)) := by
  cases hz : e.Expiration.IsZero
  · refine ⟨e, by simp [Cache.Set, Cache.store, hz], ?_, ?_, ?_⟩
    · intro ha
      simp [Cache.Add, Cache.load, Cache.store, ha, hz]
    · simp
    · simp [Item.isExpired_eq]
  · refine ⟨{ Value := e.Value, Expiration := now.Add c.defaultValidity },
      by simp [Cache.Set, Cache.store, hz], ?_, ?_, ?_⟩
    · intro ha
      simp [Cache.Add, Cache.load, Cache.store, ha, hz]
    · simp [Time.Add]
    · simp [Item.isExpired_eq, Time.Add]

/-- C12: `Get` only reads the mapping (it has no store result): for every store and
key `k`, it returns exactly the stored entry with `found = true` whenever `k` is in
the mapping, whatever that entry's expiration and whatever the clock reads, and it
returns the zero item with `found = false` exactly when `k` is not in the mapping. -/
theorem get_never_evicts {K V : Type} [DecidableEq K] [Inhabited V]
    (c : Cache K V) (k : K) :
    (∀ s : Item V, c.storage k = some s → c.Get k = (s, true)) ∧
      (c.storage k = none → c.Get k = (Item.zero, false)) ∧
      ((c.Get k).2 = false ↔ c.storage k = none) := by
  refine ⟨fun s h => by simp [Cache.Get, Cache.load, h],
    fun h => by simp [Cache.Get, Cache.load, h], ?_⟩
  cases h : c.storage k <;> simp [Cache.Get, Cache.load, h]

theorem get_never_evicts_witness :
    staleCache.storage 7 = some { Value := 1, Expiration := Time.ofInst 50 } ∧
      Item.IsExpired ({ Value := 1, Expiration := Time.ofInst 50 } : Item Nat)
        (Time.reading 100 100) = true ∧
      staleCache.Get 7 = ({ Value := 1, Expiration := Time.ofInst 50 }, true) :=
  ⟨by decide, by decide, (get_never_evicts staleCache 7).1 _ (by decide)⟩

/-- C13: for every item and clock reading `now`, `IsExpired` is true if and only if
the instant of `now` is strictly after the instant of the expiration; it is false when
the two instants are equal, true for a zero expiration at every instant after the zero
instant, and it depends neither on the location (time zone) nor on the monotonic
reading carried by the expiration or by the clock reading. -/
theorem isExpired_iff_strictly_after {V : Type} (e : Item V) (now : Time) :
    (e.IsExpired now = true ↔ e.Expiration.inst < now.inst) ∧
      (now.inst = e.Expiration.inst → e.IsExpired now = false) ∧
      (e.Expiration.IsZero = true → 0 < now.inst → e.IsExpired now = true) ∧
      (∀ (l : Location) (m : Option Int),
        Item.IsExpired { e with Expiration := { e.Expiration with loc := l, mono := m } } now
          = e.IsExpired now) ∧
      (∀ (l : Location) (m : Option Int),
        e.IsExpired { now with loc := l, mono := m } = e.IsExpired now) := by
  refine ⟨by simp [Item.isExpired_eq], ?_, ?_, fun _ _ => rfl, fun _ _ => rfl⟩
  · intro h
    simp [Item.isExpired_eq, h]
  · intro hz hn
    simp [Time.IsZero] at hz
    simp [Item.isExpired_eq, hz, hn]

theorem isExpired_iff_strictly_after_witness :
    Item.IsExpired ({ Value := 1, Expiration := Time.ofInst 100 } : Item Nat)
        (Time.reading 100 100) = false ∧
      Item.IsExpired ({ Value := 1, Expiration := Time.ofInst 0 } : Item Nat)
        (Time.reading 1 1) = true :=
  ⟨(isExpired_iff_strictly_after { Value := 1, Expiration := Time.ofInst 100 }
      (Time.reading 100 100)).2.1 (by decide),
   (isExpired_iff_strictly_after { Value := 1, Expiration := Time.ofInst 0 }
      (Time.reading 1 1)).2.2.1 (by decide) (by decide)⟩

/-! ## The branches of the expiry goroutine -/

/-- C15, as stated, fails at `x = now`: started with target expiration `100` while the
clock reads `100`, the goroutine does not delete the key but enters `time.Sleep(0)`,
and after the sleep it inspects the stored entry, so that an entry with a later
expiration written meanwhile is kept.  It also fails for a target further ahead than
the largest duration: the sleep is then that largest duration, not `x - now`. -/
theorem start_at_expiration_sleeps :
    (staleCache.expirationControlStart 7 (Time.ofInst 100) (Time.reading 100 100)).2
        = Phase.sleeping 0 (Time.ofInst 100) ∧
      (staleCache.expirationControlStart 7 (Time.ofInst 100) (Time.reading 100 100)).1.storage 7
        = some { Value := 1, Expiration := Time.ofInst 50 } ∧
      (Sys.run { cache := sampleCache, watchers := [] }
        [Event.set 7 { Value := 1, Expiration := Time.ofInst 100 } (Time.reading 90 90),
         Event.set 7 { Value := 2, Expiration := Time.ofInst 1000 } (Time.reading 95 95),
         Event.watcher 0 (Time.reading 100 100),
         Event.watcher 0 (Time.reading 100 100),
         Event.watcher 0 (Time.reading 100 100)]).cache.Get 7
        = ({ Value := 2, Expiration := Time.ofInst 1000 }, true) ∧
      (staleCache.expirationControlStart 7 (Time.ofInst 20000000000000000000)
          (Time.reading 100 100)).2
        = Phase.sleeping 9223372036854775807 (Time.ofInst 100) := by
  decide

/-- C15, amended: when an expiry goroutine starts with target expiration `x` at clock
reading `now`: if `x` is the zero sentinel or strictly before `now`, it deletes the
key at once and returns, whatever the store holds; otherwise (`x` non-zero and at or
after `now`, `x = now` included) it leaves the store unchanged and sleeps for
`x - now` saturated to the range of durations, which is exactly `x - now` whenever
that difference does not exceed the largest duration. -/
theorem start_branches {K V : Type} [DecidableEq K] [Inhabited V]
    (c : Cache K V) (k : K) (x now : Time) :
    ((x.IsZero = true ∨ x.inst < now.inst) →
        c.expirationControlStart k x now = (c.delete k, Phase.done)) ∧
      (x.IsZero = false → now.inst ≤ x.inst →
        c.expirationControlStart k x now
          = (c, Phase.sleeping (Time.saturate (x.inst - now.inst)) now.UTC)) ∧
      (now.inst ≤ x.inst → x.inst - now.inst ≤ maxDuration →
        Time.saturate (x.inst - now.inst) = x.inst - now.inst) :=
  ⟨fun h => Cache.expirationControlStart_deletes c k x now h,
   fun hz hx => Cache.expirationControlStart_sleeps c k x now hz hx,
   fun hx hm => Time.saturate_of_fits (by omega) hm⟩

theorem start_branches_witness :
    (staleCache.expirationControlStart 7 (Time.ofInst 50) (Time.reading 100 100)
        = (staleCache.delete 7, Phase.done)) ∧
      (staleCache.expirationControlStart 7 (Time.ofInst 150) (Time.reading 100 100)
        = (staleCache, Phase.sleeping (Time.saturate (150 - 100)) (Time.reading 100 100).UTC)) ∧
      Time.saturate (150 - 100) = 150 - 100 :=
  ⟨(start_branches staleCache 7 (Time.ofInst 50) (Time.reading 100 100)).1
      (Or.inr (by decide)),
   (start_branches staleCache 7 (Time.ofInst 150) (Time.reading 100 100)).2.1
      (by decide) (by decide),
   (start_branches staleCache 7 (Time.ofInst 150) (Time.reading 100 100)).2.2
      (by decide) (by decide)⟩

/-- C16: when a goroutine for key `k` resumes after its sleep while `k` is present
with stored entry `s`, and reads the clock as `t`: it deletes `k` if and only if
`s.Expiration` is not strictly after `t`, and leaves the store unchanged when
`s.Expiration` is strictly after `t`.  The outcome is the same for every target
expiration `x` the goroutine was started with. -/
theorem resume_deletes_iff {K V : Type} [DecidableEq K] [Inhabited V]
    (c : Cache K V) (k : K) (s : Item V) (t : Time) (hs : c.storage k = some s) :
    (c.expirationControlResume k t = if t.inst < s.Expiration.inst then c else c.delete k) ∧
      ((c.expirationControlResume k t).storage k = none ↔ s.Expiration.inst ≤ t.inst) ∧
      (t.inst < s.Expiration.inst → c.expirationControlResume k t = c) ∧
      (∀ (x : Time) (d : Duration) (since t0 : Time), (d ≤ 0 ∨ since.inst + d ≤ t0.inst) →
        (Watcher.step
            (Watcher.step c { key := k, expiration := x, phase := Phase.sleeping d since } t0).1
            (Watcher.step c { key := k, expiration := x, phase := Phase.sleeping d since } t0).2
            t).1
          = c.expirationControlResume k t) := by
  have hr := Cache.expirationControlResume_of_some c k s t hs
  by_cases h : t.inst < s.Expiration.inst
  · have hk := Cache.expirationControlFinish_keeps c k s t h
    refine ⟨by simp [hr, hk, h], ?_, fun _ => by rw [hr, hk], ?_⟩
    · rw [hr, hk, hs]
      constructor
      · intro h2
        cases h2
      · intro h2
        omega
    · intro x d since t0 hg
      simp [Watcher.step, hg, Cache.expirationControlLoad_of_some c k s hs, hr]
  · have hd := Cache.expirationControlFinish_deletes c k s t (by omega)
    refine ⟨by simp [hr, hd, h], ?_, fun h2 => absurd h2 h, ?_⟩
    · rw [hr, hd]
      constructor
      · intro _
        omega
      · intro _
        exact Cache.delete_storage_self c k
    · intro x d since t0 hg
      simp [Watcher.step, hg, Cache.expirationControlLoad_of_some c k s hs, hr]

theorem resume_deletes_iff_witness :
    staleCache.storage 7 = some { Value := 1, Expiration := Time.ofInst 50 } ∧
      ((staleCache.expirationControlResume 7 (Time.reading 50 50)).storage 7 = none ↔
        (Time.ofInst 50).inst ≤ (Time.reading 50 50).inst) ∧
      (staleCache.expirationControlResume 7 (Time.reading 49 49)).Get 7
        = ({ Value := 1, Expiration := Time.ofInst 50 }, true) :=
  ⟨by decide,
   (resume_deletes_iff staleCache 7 { Value := 1, Expiration := Time.ofInst 50 }
      (Time.reading 50 50) (by decide)).2.1,
   by rw [(resume_deletes_iff staleCache 7 { Value := 1, Expiration := Time.ofInst 50 }
            (Time.reading 49 49) (by decide)).2.2.1 (by decide)]
      decide⟩

/-- C17: a goroutine whose key is absent is a no-op: for every store in which key `k`
is absent, in particular every store right after `Flush`, every step of a goroutine
for `k` (entry of the body with either outcome of the test, the lookup after the
sleep, the final deletion) at any clock reading returns the store unchanged, and so
does the whole part after the sleep. -/
theorem absent_key_watcher_noop {K V : Type} [DecidableEq K] [Inhabited V]
    (c c0 : Cache K V) (k : K) (w : Watcher K V) (now : Time)
    (ha : c.storage k = none) (hw : w.key = k) :
    (w.step c now).1 = c ∧
      (w.step c0.Flush now).1 = c0.Flush ∧
      (c.expirationControlStart k w.expiration now).1 = c ∧
      c.expirationControlResume k now = c := by
  have key : ∀ c1 : Cache K V, c1.storage k = none → (w.step c1 now).1 = c1 := by
    intro c1 h1
    have hdel := Cache.delete_of_absent c1 k h1
    unfold Watcher.step
    cases hp : w.phase with
    | spawned =>
      simp only [hw, Cache.expirationControlStart]
      split_ifs <;> simp [hdel]
    | sleeping d since =>
      simp only
      split_ifs <;> rfl
    | loaded item =>
      simp only [hw, Cache.expirationControlFinish]
      split_ifs <;> simp [hdel]
    | done => rfl
  refine ⟨key c ha, key c0.Flush rfl, ?_, Cache.expirationControlResume_of_none c k now ha⟩
  have hdel := Cache.delete_of_absent c k ha
  simp only [Cache.expirationControlStart]
  split_ifs <;> simp [hdel]

theorem absent_key_watcher_noop_witness :
    sampleCache.storage 7 = none ∧
      (Watcher.step sampleCache
          ({ key := 7, expiration := Time.ofInst 50, phase := Phase.spawned } : Watcher Nat Nat)
          (Time.reading 100 100)).1 = sampleCache :=
  ⟨rfl,
   (absent_key_watcher_noop sampleCache sampleCache 7
      { key := 7, expiration := Time.ofInst 50, phase := Phase.spawned }
      (Time.reading 100 100) rfl rfl).1⟩

/-! ## Invariant and frame properties -/

/-- C18: in every state reached from a store returned by `New(d)` through any sequence
of `Set`, `Add`, `Flush` and goroutine steps, every entry present in the mapping has a
non-zero expiration.  Here `d` is a duration (not below the smallest one) and every
clock reading is a time not before the Unix epoch, so that `now + d` is never the
zero instant. -/
theorem reachable_entries_nonzero_expiration {K V : Type} [DecidableEq K] [Inhabited V]
    (d : Duration) (c0 : Cache K V) (evs : List (Event K V))
    (hd : minDuration ≤ d) (hnew : New d = Except.ok c0)
    (hclock : ∀ ev ∈ evs, ev.afterEpoch = true) :
    ∀ (k : K) (s : Item V),
      (Sys.run { cache := c0, watchers := [] } evs).cache.storage k = some s →
        s.Expiration.IsZero = false := by
  have hc0 : c0 = { defaultValidity := d, storage := fun _ => none } := by
    by_cases h0 : d = 0
    · simp [New, h0] at hnew
    · simp [New, h0] at hnew
      exact hnew.symm
  subst hc0
  exact Sys.run_nonZeroStored evs _ (fun k s hs => by simp at hs) hd hclock

theorem reachable_entries_nonzero_expiration_witness :
    minDuration ≤ 3600000000000 ∧
      (New 3600000000000 : Except String (Cache Nat Nat)) = Except.ok sampleCache ∧
      (∀ ev ∈ [Event.set 7 { Value := 1, Expiration := Time.ofInst 0 }
                  (Time.reading 62135596800000000100 100),
               Event.add 8 { Value := 2, Expiration := Time.ofInst 0 }
                  (Time.reading 62135596800000000200 200),
               Event.watcher 0 (Time.reading 62135596800000000300 300),
               (Event.flush : Event Nat Nat),
               Event.set 7 { Value := 3, Expiration := Time.ofInst 0 }
                  (Time.reading 62135596800000000400 400)],
        ev.afterEpoch = true) ∧
      ∀ (k : Nat) (s : Item Nat),
        (Sys.run { cache := sampleCache, watchers := [] }
          [Event.set 7 { Value := 1, Expiration := Time.ofInst 0 }
              (Time.reading 62135596800000000100 100),
           Event.add 8 { Value := 2, Expiration := Time.ofInst 0 }
              (Time.reading 62135596800000000200 200),
           Event.watcher 0 (Time.reading 62135596800000000300 300),
           (Event.flush : Event Nat Nat),
           Event.set 7 { Value := 3, Expiration := Time.ofInst 0 }
              (Time.reading 62135596800000000400 400)]).cache.storage k = some s →
          s.Expiration.IsZero = false :=
  ⟨by decide, rfl, by decide,
   reachable_entries_nonzero_expiration 3600000000000 sampleCache _ (by decide) rfl (by decide)⟩

/-- C19: operations on key `k` leave every other key `j` alone: `Set(k, e)`,
`Add(k, e)` and every step of a goroutine for `k`, at any clock reading, leave the
result of `Get(j)` unchanged; and no step of the system (`Set`, `Add`, `Flush` or a
goroutine step) changes `defaultValidity`.  `Get` has no store result at all. -/
theorem other_keys_untouched {K V : Type} [DecidableEq K] [Inhabited V]
    (c : Cache K V) (k j : K) (e : Item V) (now : Time) (w : Watcher K V)
    (hjk : j ≠ k) (hw : w.key = k) :
    (c.Set k e now).1.Get j = c.Get j ∧
      (c.Add k e now).1.Get j = c.Get j ∧
      (w.step c now).1.Get j = c.Get j ∧
      (c.expirationControlResume k now).Get j = c.Get j ∧
      (c.Set k e now).1.defaultValidity = c.defaultValidity ∧
      (c.Add k e now).1.defaultValidity = c.defaultValidity ∧
      c.Flush.defaultValidity = c.defaultValidity ∧
      (w.step c now).1.defaultValidity = c.defaultValidity ∧
      (∀ (s : Sys K V) (ev : Event K V),
        (s.step ev).cache.defaultValidity = s.cache.defaultValidity) := by
  have hdel : (c.delete k).Get j = c.Get j := by
    simp [Cache.Get, Cache.load, Cache.delete, hjk]
  have hset : (c.Set k e now).1.Get j = c.Get j := by
    simp [Cache.Set, Cache.store, Cache.Get, Cache.load, hjk]
  have hstep := Watcher.step_cache c w now
  rw [hw] at hstep
  refine ⟨hset, ?_, ?_, ?_, rfl, ?_, rfl, ?_, Sys.step_defaultValidity⟩
  · unfold Cache.Add
    split_ifs
    · rfl
    · exact hset
  · rcases hstep with h | h <;> rw [h]
    exact hdel
  · unfold Cache.expirationControlResume
    split
    · unfold Cache.expirationControlFinish
      split_ifs
      · rfl
      · exact hdel
    · rfl
  · unfold Cache.Add
    split_ifs <;> rfl
  · rcases hstep with h | h <;> rw [h]
    rfl

theorem other_keys_untouched_witness :
    (7 : Nat) ≠ 8 ∧
      (staleCache.Set 8 { Value := 2, Expiration := Time.ofInst 900 } (Time.reading 100 100)).1.Get 7
        = staleCache.Get 7 ∧
      (Watcher.step staleCache
          ({ key := 8, expiration := Time.ofInst 50, phase := Phase.spawned } : Watcher Nat Nat)
          (Time.reading 100 100)).1.Get 7 = staleCache.Get 7 :=
  ⟨by decide,
   (other_keys_untouched staleCache 8 7 { Value := 2, Expiration := Time.ofInst 900 }
      (Time.reading 100 100) { key := 8, expiration := Time.ofInst 50, phase := Phase.spawned }
      (by decide) rfl).1,
   (other_keys_untouched staleCache 8 7 { Value := 2, Expiration := Time.ofInst 900 }
      (Time.reading 100 100) { key := 8, expiration := Time.ofInst 50, phase := Phase.spawned }
      (by decide) rfl).2.2.1⟩

end Caching
